import Mathlib

/-!
Shallow embedding of the concert-budget lakehouse pipeline
(src/core/lakehouse.py, src/core/prescriptive.py, and their duplicated
counterparts DataLakehouse / PrescriptiveEngine in src/main.py; both pairs
implement the same transformations line for line).

Modelling conventions:

* A pandas DataFrame is a list of rows (order = index order) together with,
  at the Bronze boundary, the list of column names that are present.
* A raw CSV cell (`Cell`) is a parsed number, a text value, or null (NaN
  after `pd.read_csv`).  `pd.to_numeric(errors="coerce")` maps non-numeric
  cells to NaN, modelled by `toNumeric : Cell → Option ℚ`; dates are
  abstracted to their numeric timestamps and `pd.to_datetime` is modelled
  the same way.
* Numbers are exact rationals.  The float values that the pipeline can
  actually observe are either finite or non-finite (NaN / ±inf, which arise
  only from division by zero here and then propagate through +, -, *, and
  are skipped by pandas max/idxmax).  We model a float as `Option ℚ` with
  `none` standing for any non-finite value: `odiv` returns `none` on a zero
  divisor, and `oadd`/`osub`/`omul` propagate `none` (NaN/inf absorb through
  those operations, including `0 * NaN = NaN` and `0 * inf = NaN`).
-/

namespace KPop

/-- A raw table cell as produced by CSV ingestion: a numeric value, a text
value, or null (pandas NaN). -/
inductive Cell where
  | num (q : ℚ)
  | text (s : String)
  | null
deriving DecidableEq

/-- Whether a cell is null (pandas NaN), as tested by `dropna`. -/
def Cell.isNull : Cell → Bool
  | .null => true
  | _ => false

/-- Model of `pd.to_numeric(col, errors="coerce")` on one cell: numeric cells
keep their value, text and null cells become NaN (`none`).  (Numeric-looking
strings were already turned into numbers by `pd.read_csv` at the Bronze
stage, so text cells reaching this point do not parse.) -/
def toNumeric : Cell → Option ℚ
  | .num q => some q
  | .text _ => none
  | .null => none

/-- Model of `pd.to_datetime(col, errors="coerce")` on one cell, with
calendar dates abstracted to numeric timestamps: parseable cells keep a
numeric value, unparseable and null cells become NaT (`none`). -/
def toDatetime : Cell → Option ℚ
  | .num q => some q
  | .text _ => none
  | .null => none

/-- Addition on the float model: NaN/inf-propagating. -/
def oadd : Option ℚ → Option ℚ → Option ℚ
  | some a, some b => some (a + b)
  | _, _ => none

/-- Subtraction on the float model: NaN/inf-propagating. -/
def osub : Option ℚ → Option ℚ → Option ℚ
  | some a, some b => some (a - b)
  | _, _ => none

/-- Multiplication by a finite scalar on the float model.  `w * NaN = NaN`
and `w * inf` is non-finite for every finite `w` (NaN when `w = 0`), so
`none` absorbs. -/
def omul (w : ℚ) : Option ℚ → Option ℚ
  | some a => some (w * a)
  | none => none

/-- Division on the float model.  A zero divisor yields a non-finite value
(`0/0 = NaN`, `x/0 = ±inf`), modelled as `none`; non-finite operands
propagate. -/
def odiv : Option ℚ → Option ℚ → Option ℚ
  | some a, some b => if b = 0 then none else some (a / b)
  | _, _ => none

/-- Model of pandas `Series.max` (skipna): the maximum of the non-NaN
entries, NaN (`none`) when there are none. -/
def omax : List (Option ℚ) → Option ℚ
  | [] => none
  | none :: rest => omax rest
  | some q :: rest =>
    match omax rest with
    | none => some q
    | some m => some (max q m)

/-- Model of pandas `Series.min` (skipna), dual to `omax`. -/
def omin : List (Option ℚ) → Option ℚ
  | [] => none
  | none :: rest => omin rest
  | some q :: rest =>
    match omin rest with
    | none => some q
    | some m => some (min q m)

/-- The eight required input columns (`req_cols` in
`Lakehouse.transform_silver`, `required_cols` in
`DataLakehouse.transform_to_silver`). -/
def reqCols : List String :=
  ["nama_konser", "lokasi", "tanggal", "harga_tiket", "biaya_transport",
   "biaya_akomodasi", "merchandise", "total_pengeluaran"]

/-- One Bronze row: the eight fields as raw cells (a field whose column is
absent from the table is never consulted, because `transform_silver` fails
before touching the rows in that case). -/
structure RawRow where
  nama_konser : Cell
  lokasi : Cell
  tanggal : Cell
  harga_tiket : Cell
  biaya_transport : Cell
  biaya_akomodasi : Cell
  merchandise : Cell
  total_pengeluaran : Cell
deriving DecidableEq

/-- A Bronze table: the column names present in the source file plus the
rows, in file order. -/
structure BronzeTable where
  cols : List String
  rows : List RawRow
deriving DecidableEq

/-- One Silver row: `nama_konser` and `lokasi` keep their raw cell values,
`tanggal` is datetime-coerced, and the five cost columns are
numeric-coerced. -/
structure SilverRow where
  nama_konser : Cell
  lokasi : Cell
  tanggal : Option ℚ
  harga_tiket : Option ℚ
  biaya_transport : Option ℚ
  biaya_akomodasi : Option ℚ
  merchandise : Option ℚ
  total_pengeluaran : Option ℚ
deriving DecidableEq

/-- The per-row type coercions of `transform_silver` (steps 2 and 3:
`pd.to_datetime` on `tanggal`, `pd.to_numeric` on the five cost columns). -/
def coerceRow (r : RawRow) : SilverRow :=
  { nama_konser := r.nama_konser
    lokasi := r.lokasi
    tanggal := toDatetime r.tanggal
    harga_tiket := toNumeric r.harga_tiket
    biaya_transport := toNumeric r.biaya_transport
    biaya_akomodasi := toNumeric r.biaya_akomodasi
    merchandise := toNumeric r.merchandise
    total_pengeluaran := toNumeric r.total_pengeluaran }

/-- Model of `Lakehouse.transform_silver` (= `transform_to_silver` in
src/main.py): if any required column is missing, raise
`ValueError(f"Missing columns. Required: {req_cols}")` — the error payload
is the list of column names interpolated into that message, which is always
the full `req_cols` list; otherwise coerce types, drop rows whose
`nama_konser` or `total_pengeluaran` is null (`dropna`), and drop rows with
negative total (`df[df["total_pengeluaran"] >= 0]`; a NaN total compares
false, but such rows were already dropped).  Persistence (`_save`) is a
side effect outside the data path and is not modelled. -/
def transform_silver (t : BronzeTable) : Except (List String) (List SilverRow) :=
  if ∀ c ∈ reqCols, c ∈ t.cols then
    let df := t.rows.map coerceRow
    let dropped := df.filter
      (fun r => !r.nama_konser.isNull && r.total_pengeluaran.isSome)
    let filtered := dropped.filter
      (fun r =>
        match r.total_pengeluaran with
        | some q => decide (0 ≤ q)
        | none => false)
    .ok filtered
  else
    .error reqCols

/-- The affordability categorisation applied to one (non-null) total by
`aggregate_gold` (the lambda passed to `.apply`); the Python float literals
0.5 and 0.8 are the exact rationals 1/2 and 4/5. -/
def affordability (budget x : ℚ) : String :=
  if x ≤ budget * (1/2) then "Sangat Terjangkau"
  else if x ≤ budget * (4/5) then "Terjangkau"
  else if x ≤ budget then "Limit"
  else "Tidak Terjangkau"

/-- The affordability lambda on the float model: every comparison with NaN
is false, so a NaN total falls through all three branches to
"Tidak Terjangkau". -/
def affordCell (budget : ℚ) : Option ℚ → String
  | some x => affordability budget x
  | none => "Tidak Terjangkau"

/-- One Gold row: the Silver row it was built from (`df = df_silver.copy()`
keeps every existing column unchanged) plus the two derived columns. -/
structure GoldRow where
  silver : SilverRow
  efficiency_score : Option ℚ
  affordability : String
deriving DecidableEq

/-- Round half to even on a rational, as numpy rounding underlying pandas
`.round(0)` does. -/
def roundHalfEven (q : ℚ) : ℤ :=
  let f := Int.floor q
  let r := q - f
  if r < 1/2 then f
  else if 1/2 < r then f + 1
  else if f % 2 = 0 then f else f + 1

/-- Pandas `.round(0)` on one float-model value (NaN stays NaN). -/
def oround (x : Option ℚ) : Option ℚ :=
  x.map (fun q => (roundHalfEven q : ℚ))

/-- One row of the location-statistics table produced by
`df.groupby("lokasi").agg({"total_pengeluaran": ["mean","min","max","count"]}).round(0)`:
the group key and the four aggregates of the group's non-NaN totals
(`count` counts the non-NaN totals). -/
structure LocStat where
  lokasi : Cell
  mean : Option ℚ
  min : Option ℚ
  max : Option ℚ
  count : ℕ
deriving DecidableEq

/-- A total order on group keys, mirroring how pandas `groupby` sorts its
keys ascending (in the source data the keys are location strings; the
numeric and null cases make the order total). -/
def cellLe (a b : Cell) : Bool :=
  match a, b with
  | .null, _ => true
  | _, .null => false
  | .num x, .num y => decide (x ≤ y)
  | .num _, .text _ => true
  | .text _, .num _ => false
  | .text s, .text t => !decide (t < s)

/-- Insert a key into an already sorted key list (ascending under
`cellLe`). -/
def insertCell (c : Cell) : List Cell → List Cell
  | [] => [c]
  | x :: xs => if cellLe x c then x :: insertCell c xs else c :: x :: xs

/-- Sort a key list ascending under `cellLe`. -/
def sortKeys : List Cell → List Cell
  | [] => []
  | c :: cs => insertCell c (sortKeys cs)

/-- The group keys of `groupby("lokasi")`: the distinct non-null location
values, sorted ascending (pandas drops NaN keys and sorts by default). -/
def distinctKeys (rows : List SilverRow) : List Cell :=
  sortKeys (((rows.map (fun r => r.lokasi)).filter (fun c => !c.isNull)).dedup)

/-- The non-NaN totals of the rows in one location group. -/
def groupTotals (rows : List SilverRow) (k : Cell) : List ℚ :=
  (rows.filter (fun r => r.lokasi == k)).filterMap (fun r => r.total_pengeluaran)

/-- The location-statistics table of `aggregate_gold`: per distinct location,
mean/min/max/count of `total_pengeluaran`, skipping NaN, rounded half to
even (`.round(0)`).  A group whose totals are all NaN has count 0 and NaN
aggregates. -/
def locationStats (rows : List SilverRow) : List LocStat :=
  (distinctKeys rows).map (fun k =>
    let ts := groupTotals rows k
    { lokasi := k
      mean := oround (if ts.isEmpty then none else some (ts.sum / ts.length))
      min := oround (omin (ts.map some))
      max := oround (omax (ts.map some))
      count := ts.length })

/-- Model of `Lakehouse.aggregate_gold` (= `aggregate_to_gold` in
src/main.py): copy the Silver table, add
`efficiency_score = total_pengeluaran / (max(total_pengeluaran) + 1)` and
the `affordability` label, and compute the per-location statistics.
Persistence is a side effect outside the data path and is not modelled.
On an empty table `omax` is NaN, but no row exists to divide, and the
result is the pair of empty tables (pandas raises nothing there). -/
def aggregate_gold (rows : List SilverRow) (budget : ℚ) :
    List GoldRow × List LocStat :=
  let m := omax (rows.map (fun r => r.total_pengeluaran))
  let gold := rows.map (fun r =>
    { silver := r
      efficiency_score := odiv r.total_pengeluaran (oadd m (some 1))
      affordability := affordCell budget r.total_pengeluaran })
  (gold, locationStats rows)

/-- Default scoring weights (config defaults WEIGHT_COST = 0.4,
WEIGHT_REMAINING = 0.3, WEIGHT_EXPERIENCE = 0.3; src/main.py hard-codes the
same three values). -/
def weight_cost : ℚ := 2/5

/-- Default WEIGHT_REMAINING = 0.3. -/
def weight_remaining : ℚ := 3/10

/-- Default WEIGHT_EXPERIENCE = 0.3. -/
def weight_experience : ℚ := 3/10

/-- One scored feasible row: the Gold row (`feasible` is a filtered copy of
the engine's input, keeping all columns) plus the five derived scoring
columns. -/
structure ScoredRow where
  gold : GoldRow
  score_cost : Option ℚ
  sisa_budget : Option ℚ
  score_remaining : Option ℚ
  score_experience : Option ℚ
  prescriptive_score : Option ℚ
deriving DecidableEq

/-- The feasibility filter
`self.df[self.df["total_pengeluaran"] <= self.budget]`: a NaN total
compares false and is excluded. -/
def feasibleSet (rows : List GoldRow) (budget : ℚ) : List GoldRow :=
  rows.filter (fun r =>
    match r.silver.total_pengeluaran with
    | some t => decide (t ≤ budget)
    | none => false)

/-- The five derived columns of `calc_scores` on the feasible set, one row
at a time (lines 50-67 of src/core/prescriptive.py):
`score_cost = 1 - total/max(total)`, `sisa_budget = budget - total`,
`score_remaining = sisa_budget/max(sisa_budget)`,
`score_experience = merchandise/max(merchandise)`, and the weighted sum
`prescriptive_score = (wc*score_cost + wr*score_remaining) + we*score_experience`
(Python evaluates the chain of + left to right). -/
def withScores (wc wr we budget : ℚ) (feasible : List GoldRow) : List ScoredRow :=
  let maxTotal := omax (feasible.map (fun r => r.silver.total_pengeluaran))
  let sisa := fun (r : GoldRow) => osub (some budget) r.silver.total_pengeluaran
  let maxSisa := omax (feasible.map sisa)
  let maxMerch := omax (feasible.map (fun r => r.silver.merchandise))
  feasible.map (fun r =>
    let sc := osub (some 1) (odiv r.silver.total_pengeluaran maxTotal)
    let sb := sisa r
    let sr := odiv sb maxSisa
    let se := odiv r.silver.merchandise maxMerch
    { gold := r
      score_cost := sc
      sisa_budget := sb
      score_remaining := sr
      score_experience := se
      prescriptive_score := oadd (oadd (omul wc sc) (omul wr sr)) (omul we se) })

/-- Model of `Series.idxmax` followed by `.loc`: the first row attaining the
maximum `prescriptive_score`, skipping NaN scores; the strict comparison
keeps the first row encountered among ties.  When every score is NaN there
is no such row (recent pandas raises there); that branch is modelled as
`none` and is reached only through the unguarded zero-division defect. -/
def idxmaxScore (l : List ScoredRow) : Option ScoredRow :=
  (l.foldl (fun acc r =>
    match r.prescriptive_score with
    | none => acc
    | some s =>
      match acc with
      | none => some (r, s)
      | some (_, bs) => if bs < s then some (r, s) else acc) none).map Prod.fst

/-- Whether row `a` must be placed strictly above row `b` when sorting by
`prescriptive_score` descending: a NaN score sorts below every non-NaN
score (pandas `sort_values` puts NaN last). -/
def rankAbove (a b : ScoredRow) : Bool :=
  match a.prescriptive_score, b.prescriptive_score with
  | some x, some y => decide (y < x)
  | some _, none => true
  | none, _ => false

/-- Insert a row into an already descending-sorted ranked list, after every
row strictly above it. -/
def insertRanked (r : ScoredRow) : List ScoredRow → List ScoredRow
  | [] => [r]
  | x :: xs => if rankAbove x r then x :: insertRanked r xs else r :: x :: xs

/-- One admissible outcome of
`feasible.sort_values("prescriptive_score", ascending=False)`: descending
by score with NaN last.  The source's default sort kind (quicksort) fixes
only the score order; this realisation keeps ties in input order. -/
def sortRanked : List ScoredRow → List ScoredRow
  | [] => []
  | r :: rest => insertRanked r (sortRanked rest)

/-- Model of `Prescriptive.calc_scores` (= `calculate_prescriptive_score` in
src/main.py): filter to the feasible set; return `None` (the outer `none`)
when it is empty; otherwise derive the five scoring columns and return the
optimal row (`idxmax`) together with the ranked table. -/
def calc_scores (wc wr we budget : ℚ) (rows : List GoldRow) :
    Option (Option ScoredRow × List ScoredRow) :=
  let feasible := feasibleSet rows budget
  if feasible.isEmpty then none
  else
    let scored := withScores wc wr we budget feasible
    some (idxmaxScore scored, sortRanked scored)

/-- The affordability categorisation as the specification words it
(section 4.3): same fixed thresholds, inclusive upper bounds, with the
specification's English label names.  Used only to compare against the
source-derived `affordability`. -/
def specAffordability (budget x : ℚ) : String :=
  if x ≤ budget * (1/2) then "Very Affordable"
  else if x ≤ budget * (4/5) then "Affordable"
  else if x ≤ budget then "At Limit"
  else "Not Affordable"

/-- The specification's English names for the source's four affordability
labels (the source docstring pairs them the same way). -/
def labelEn : String → String
  | "Sangat Terjangkau" => "Very Affordable"
  | "Terjangkau" => "Affordable"
  | "Limit" => "At Limit"
  | "Tidak Terjangkau" => "Not Affordable"
  | s => s

/-- Concrete Gold row for the one-row scenario: total 100, merchandise 20
(its derived columns are exactly what `aggregate_gold` yields for this row
at budget 200). -/
def g1 : GoldRow :=
  { silver :=
      { nama_konser := Cell.text "Konser A"
        lokasi := Cell.text "Jakarta"
        tanggal := some 20250101
        harga_tiket := some 60
        biaya_transport := some 10
        biaya_akomodasi := some 10
        merchandise := some 20
        total_pengeluaran := some 100 }
    efficiency_score := some (100/101)
    affordability := "Sangat Terjangkau" }

/-- The scored row the engine derives from `g1` at budget 200 with default
weights. -/
def s1 : ScoredRow :=
  { gold := g1
    score_cost := some 0
    sisa_budget := some 100
    score_remaining := some 1
    score_experience := some 1
    prescriptive_score := some (3/5) }

/-- Concrete Gold row with zero total (the zero-denominator case): total 0,
merchandise 20 (derived columns as `aggregate_gold` yields at budget 100). -/
def g0 : GoldRow :=
  { silver :=
      { nama_konser := Cell.text "Konser Gratis"
        lokasi := Cell.text "Jakarta"
        tanggal := some 20250103
        harga_tiket := some 0
        biaya_transport := some 0
        biaya_akomodasi := some 0
        merchandise := some 20
        total_pengeluaran := some 0 }
    efficiency_score := some 0
    affordability := "Sangat Terjangkau" }

/-- The scored row the engine derives from `g0` at budget 100 with default
weights: the zero max total makes `score_cost` (and hence the weighted
`prescriptive_score`) non-finite. -/
def s0 : ScoredRow :=
  { gold := g0
    score_cost := none
    sisa_budget := some 100
    score_remaining := some 1
    score_experience := some 1
    prescriptive_score := none }

/-- Concrete Gold row used for the empty-feasible-set scenario (total 100,
infeasible at budget 0). -/
def g9 : GoldRow :=
  { silver :=
      { nama_konser := Cell.text "Konser C"
        lokasi := Cell.text "Surabaya"
        tanggal := some 20250104
        harga_tiket := some 70
        biaya_transport := some 20
        biaya_akomodasi := some 5
        merchandise := some 5
        total_pengeluaran := some 100 }
    efficiency_score := some (100/101)
    affordability := "Tidak Terjangkau" }

/-- Concrete Bronze table whose columns are the required eight minus
`merchandise`. -/
def bt4 : BronzeTable :=
  { cols := ["nama_konser", "lokasi", "tanggal", "harga_tiket",
      "biaya_transport", "biaya_akomodasi", "total_pengeluaran"]
    rows := [] }

/-- Concrete Bronze table with all eight required columns and one row. -/
def bt5 : BronzeTable :=
  { cols := reqCols
    rows :=
      [{ nama_konser := Cell.text "Konser D"
         lokasi := Cell.text "Bandung"
         tanggal := Cell.text "not a date"
         harga_tiket := Cell.num 150
         biaya_transport := Cell.num 25
         biaya_akomodasi := Cell.num 15
         merchandise := Cell.num 10
         total_pengeluaran := Cell.num 200 }] }

/-- Concrete Silver row (total 200, all costs present and non-negative). -/
def sr8 : SilverRow :=
  { nama_konser := Cell.text "Konser D"
    lokasi := Cell.text "Bandung"
    tanggal := none
    harga_tiket := some 150
    biaya_transport := some 25
    biaya_akomodasi := some 15
    merchandise := some 10
    total_pengeluaran := some 200 }

theorem omax_isSome {l : List (Option ℚ)} {q : ℚ} (h : some q ∈ l) :
    ∃ m, omax l = some m := by
  induction l with
  | nil => cases h
  | cons x rest ih =>
    rcases List.mem_cons.mp h with h1 | h2
    · subst h1
      cases hrest : omax rest with
      | none => exact ⟨q, by simp [omax, hrest]⟩
      | some m => exact ⟨max q m, by simp [omax, hrest]⟩
    · rcases ih h2 with ⟨m, hm⟩
      cases x with
      | none => exact ⟨m, by simp [omax, hm]⟩
      | some a => exact ⟨max a m, by simp [omax, hm]⟩

theorem le_omax {l : List (Option ℚ)} {q m : ℚ} (hm : omax l = some m)
    (h : some q ∈ l) : q ≤ m := by
  induction l generalizing m with
  | nil => cases h
  | cons x rest ih =>
    rcases List.mem_cons.mp h with h1 | h2
    · subst h1
      cases hrest : omax rest with
      | none =>
        simp [omax, hrest] at hm
        exact le_of_eq hm
      | some b =>
        simp [omax, hrest] at hm
        exact hm ▸ le_max_left q b
    · cases x with
      | none =>
        simp only [omax] at hm
        exact ih hm h2
      | some a =>
        cases hrest : omax rest with
        | none =>
          rcases omax_isSome h2 with ⟨b, hb⟩
          rw [hrest] at hb
          cases hb
        | some b =>
          simp [omax, hrest] at hm
          exact le_trans (ih hrest h2) (hm ▸ le_max_right a b)

/-- C1, counterexample: on the one-row scenario (total 100, merchandise 20,
budget 200, default weights 0.4/0.3/0.3) the engine computes
`score_cost = 1 - 100/100 = 0` and `prescriptive_score = 3/5`, so the
claimed values `score_cost = 1` and `prescriptive_score = 1` are both
wrong, although the feasible set is that single row and it is returned as
optimal. -/
theorem C1_counterexample :
    calc_scores weight_cost weight_remaining weight_experience 200 [g1] =
      some (some s1, [s1]) ∧
    s1.score_cost ≠ some 1 ∧ s1.prescriptive_score ≠ some 1 := by
  have hf : feasibleSet [g1] 200 = [g1] := by
    simp only [feasibleSet, List.filter, g1]
    norm_num
  have hw : withScores weight_cost weight_remaining weight_experience 200 [g1] =
      [s1] := by
    simp only [withScores, List.map_cons, List.map_nil, omax, osub, odiv, omul,
      oadd, weight_cost, weight_remaining, weight_experience, g1, s1]
    norm_num
  have hi : idxmaxScore [s1] = some s1 := by
    simp only [idxmaxScore, List.foldl, s1]
    norm_num
  have hs : sortRanked [s1] = [s1] := by
    simp only [sortRanked, insertRanked]
  refine ⟨?_, by norm_num [s1], by norm_num [s1]⟩
  simp only [calc_scores, hf, hw, hi, hs, List.isEmpty_cons]
  simp

/-- C1, amended: for the input table with the single row
(total_pengeluaran 100, merchandise 20) and budget 200 under the default
weights, the feasible set is exactly that row, with `score_cost = 0`,
`score_remaining = 1`, `score_experience = 1`,
`prescriptive_score = 0.6`, and that row is returned as the optimal
recommendation. -/
theorem C1_amended :
    calc_scores weight_cost weight_remaining weight_experience 200 [g1] =
      some (some s1, [s1]) ∧
    s1.gold = g1 ∧ s1.score_cost = some 0 ∧ s1.score_remaining = some 1 ∧
    s1.score_experience = some 1 ∧ s1.prescriptive_score = some (3/5) := by
  have hf : feasibleSet [g1] 200 = [g1] := by
    simp only [feasibleSet, List.filter, g1]
    norm_num
  have hw : withScores weight_cost weight_remaining weight_experience 200 [g1] =
      [s1] := by
    simp only [withScores, List.map_cons, List.map_nil, omax, osub, odiv, omul,
      oadd, weight_cost, weight_remaining, weight_experience, g1, s1]
    norm_num
  have hi : idxmaxScore [s1] = some s1 := by
    simp only [idxmaxScore, List.foldl, s1]
    norm_num
  have hs : sortRanked [s1] = [s1] := by
    simp only [sortRanked, insertRanked]
  refine ⟨?_, by norm_num [s1, g1], by norm_num [s1], by norm_num [s1],
    by norm_num [s1], by norm_num [s1]⟩
  simp only [calc_scores, hf, hw, hi, hs, List.isEmpty_cons]
  simp

/-- C2, evaluation at the failing input: for a single feasible row with
`total_pengeluaran = 0` (budget 100, default weights) the engine computes
`score_cost` as `1 - 0/0`, a non-finite value (`none`), not the guarded
value 1 the specification defines; the NaN propagates into
`prescriptive_score`, so the optimal-row lookup finds no row. -/
theorem C2_code_bug :
    calc_scores weight_cost weight_remaining weight_experience 100 [g0] =
      some (none, [s0]) ∧
    s0.score_cost = none ∧ s0.score_cost ≠ some 1 := by
  have hf : feasibleSet [g0] 100 = [g0] := by
    simp only [feasibleSet, List.filter, g0]
    norm_num
  have hw : withScores weight_cost weight_remaining weight_experience 100 [g0] =
      [s0] := by
    simp only [withScores, List.map_cons, List.map_nil, omax, osub, odiv, omul,
      oadd, weight_cost, weight_remaining, weight_experience, g0, s0]
    norm_num
  have hi : idxmaxScore [s0] = none := by
    simp only [idxmaxScore, List.foldl, s0]
    norm_num
  have hs : sortRanked [s0] = [s0] := by
    simp only [sortRanked, insertRanked]
  refine ⟨?_, by norm_num [s0], by simp [s0]⟩
  simp only [calc_scores, hf, hw, hi, hs, List.isEmpty_cons]
  simp

/-- C4, counterexample: on an input missing only the `merchandise` column the
Silver stage does fail, but the column list in its error message is the
full eight-element required list, not the missing columns: it names
`nama_konser`, a column that is present, so the message does not name
exactly the missing columns. -/
theorem C4_counterexample :
    transform_silver bt4 = Except.error reqCols ∧ reqCols ≠ ["merchandise"] ∧
    "nama_konser" ∈ reqCols ∧ "nama_konser" ∈ bt4.cols := by
  have h : ¬ ∀ c ∈ reqCols, c ∈ bt4.cols := by decide
  refine ⟨?_, by decide, by decide, by decide⟩
  unfold transform_silver
  rw [if_neg h]

/-- C4, amended: for every input table missing at least one of the eight
required columns, the Silver stage fails with a schema error whose message
lists the full set of eight required columns (so `merchandise` is always
named in the message, but the missing columns are not specifically
identified). -/
theorem C4_amended (t : BronzeTable)
    (h : ¬ ∀ c ∈ reqCols, c ∈ t.cols) :
    transform_silver t = Except.error reqCols ∧ "merchandise" ∈ reqCols := by
  refine ⟨?_, by decide⟩
  unfold transform_silver
  rw [if_neg h]

/-- C4, witness: the amended statement at the concrete table missing only
`merchandise`. -/
theorem C4_witness :
    (¬ ∀ c ∈ reqCols, c ∈ bt4.cols) ∧
    (transform_silver bt4 = Except.error reqCols ∧ "merchandise" ∈ reqCols) := by
  have h : ¬ ∀ c ∈ reqCols, c ∈ bt4.cols := by decide
  exact ⟨h, C4_amended bt4 h⟩

/-- C5: for every input table containing all eight required columns, the
Silver stage succeeds and its output has no row with a null name, a null
total, or a negative total, and the surviving rows form a subsequence (in
input order) of the type-coerced input rows. -/
theorem C5_silver_clean (t : BronzeTable)
    (hcols : ∀ c ∈ reqCols, c ∈ t.cols) :
    ∃ rows, transform_silver t = Except.ok rows ∧
      (∀ r ∈ rows, r.nama_konser.isNull = false ∧
        ∃ q, r.total_pengeluaran = some q ∧ 0 ≤ q) ∧
      rows.Sublist (t.rows.map coerceRow) := by
  refine ⟨((t.rows.map coerceRow).filter
      (fun r => !r.nama_konser.isNull && r.total_pengeluaran.isSome)).filter
      (fun r =>
        match r.total_pengeluaran with
        | some q => decide (0 ≤ q)
        | none => false), ?_, ?_, ?_⟩
  · unfold transform_silver
    rw [if_pos hcols]
  · intro r hr
    have hr2 := List.mem_filter.mp hr
    have hr1 := List.mem_filter.mp hr2.1
    constructor
    · have hb := hr1.2
      simp only [Bool.and_eq_true, Bool.not_eq_true'] at hb
      exact hb.1
    · have h2 := hr2.2
      cases htt : r.total_pengeluaran with
      | none =>
        rw [htt] at h2
        cases h2
      | some q =>
        rw [htt] at h2
        exact ⟨q, rfl, of_decide_eq_true h2⟩
  · exact (List.filter_sublist _).trans (List.filter_sublist _)

/-- C5, witness: the statement at a concrete one-row table with all eight
columns present. -/
theorem C5_witness :
    (∀ c ∈ reqCols, c ∈ bt5.cols) ∧
    (∃ rows, transform_silver bt5 = Except.ok rows ∧
      (∀ r ∈ rows, r.nama_konser.isNull = false ∧
        ∃ q, r.total_pengeluaran = some q ∧ 0 ≤ q) ∧
      rows.Sublist (bt5.rows.map coerceRow)) := by
  have h : ∀ c ∈ reqCols, c ∈ bt5.cols := by decide
  exact ⟨h, C5_silver_clean bt5 h⟩

/-- C6: for every row and positive budget, the source affordability label
agrees (under the specification's English names for the four labels) with
the specification's fixed inclusive thresholds, and a total exactly equal
to half the budget receives the first label. -/
theorem C6_affordability (total budget : ℚ) (h : 0 < budget) :
    labelEn (affordability budget total) = specAffordability budget total ∧
    (total = budget * (1/2) →
      labelEn (affordability budget total) = "Very Affordable") := by
  constructor
  · unfold affordability specAffordability
    split_ifs <;> rfl
  · intro ht
    unfold affordability
    rw [if_pos (le_of_eq ht)]
    rfl

/-- C6, witness: the statement at total 50 and budget 100 (the exact
half-budget boundary). -/
theorem C6_witness :
    (0:ℚ) < 100 ∧
    (labelEn (affordability 100 50) = specAffordability 100 50 ∧
      ((50:ℚ) = 100 * (1/2) →
        labelEn (affordability 100 50) = "Very Affordable")) :=
  ⟨by norm_num, C6_affordability 50 100 (by norm_num)⟩

/-- C7: on an empty input table the Gold stage raises nothing and returns
the empty augmented table and empty location statistics; no per-row
division is performed (there is no row), even though the max over zero
rows is NaN. -/
theorem C7_gold_empty (budget : ℚ) :
    aggregate_gold ([] : List SilverRow) budget = ([], []) := by
  simp [aggregate_gold, locationStats, distinctKeys, sortKeys]

/-- C8: for every non-empty Silver table whose totals are all present and
non-negative, every Gold efficiency score exists, lies in [0,1], and is
monotonically non-decreasing in the row total (the table maximum being
fixed). -/
theorem C8_efficiency (rows : List SilverRow) (budget : ℚ)
    (hne : rows ≠ [])
    (htot : ∀ r ∈ rows, ∃ q, r.total_pengeluaran = some q ∧ 0 ≤ q) :
    (∀ g ∈ (aggregate_gold rows budget).1,
        ∃ e, g.efficiency_score = some e ∧ 0 ≤ e ∧ e ≤ 1) ∧
    (∀ g ∈ (aggregate_gold rows budget).1,
      ∀ g2 ∈ (aggregate_gold rows budget).1,
        ∀ t t2 e e2, g.silver.total_pengeluaran = some t →
          g2.silver.total_pengeluaran = some t2 →
          g.efficiency_score = some e → g2.efficiency_score = some e2 →
          t ≤ t2 → e ≤ e2) := by
  obtain ⟨r0, hr0⟩ := List.exists_mem_of_ne_nil rows hne
  obtain ⟨q0, hq0, hq0nn⟩ := htot r0 hr0
  have hq0mem : some q0 ∈ rows.map (fun r => r.total_pengeluaran) :=
    List.mem_map.mpr ⟨r0, hr0, hq0⟩
  obtain ⟨m, hm⟩ := omax_isSome hq0mem
  have hmnn : 0 ≤ m := le_trans hq0nn (le_omax hm hq0mem)
  have hm1 : (0:ℚ) < m + 1 := by linarith
  have heff : ∀ g ∈ (aggregate_gold rows budget).1, ∀ t,
      g.silver.total_pengeluaran = some t →
      g.efficiency_score = some (t / (m + 1)) ∧ t ≤ m ∧ 0 ≤ t := by
    intro g hg t hgt
    simp only [aggregate_gold] at hg
    obtain ⟨r, hr, hgr⟩ := List.mem_map.mp hg
    have hrt : r.total_pengeluaran = some t := by
      rw [← hgr] at hgt
      exact hgt
    obtain ⟨q, hq, hqnn⟩ := htot r hr
    have htq : t = q := by
      rw [hrt] at hq
      exact Option.some.inj hq
    have htmem : some t ∈ rows.map (fun r => r.total_pengeluaran) :=
      List.mem_map.mpr ⟨r, hr, hrt⟩
    refine ⟨?_, le_omax hm htmem, htq ▸ hqnn⟩
    rw [← hgr]
    show odiv r.total_pengeluaran
        (oadd (omax (rows.map (fun r => r.total_pengeluaran))) (some 1)) =
      some (t / (m + 1))
    rw [hrt, hm]
    simp only [oadd, odiv]
    rw [if_neg (ne_of_gt hm1)]
  constructor
  · intro g hg
    have hg2 := hg
    simp only [aggregate_gold] at hg2
    obtain ⟨r, hr, hgr⟩ := List.mem_map.mp hg2
    obtain ⟨q, hq, hqnn⟩ := htot r hr
    have hgt : g.silver.total_pengeluaran = some q := by
      rw [← hgr]
      exact hq
    obtain ⟨heq, htm, htnn⟩ := heff g hg q hgt
    refine ⟨q / (m + 1), heq, div_nonneg htnn (le_of_lt hm1), ?_⟩
    rw [div_le_one hm1]
    linarith
  · intro g hg g2 hgm2 t t2 e e2 h1 h2 h3 h4 hle
    obtain ⟨he1, -, -⟩ := heff g hg t h1
    obtain ⟨he2, -, -⟩ := heff g2 hgm2 t2 h2
    rw [he1] at h3
    rw [he2] at h4
    rw [(Option.some.inj h3).symm, (Option.some.inj h4).symm]
    exact div_le_div_of_nonneg_right hle (le_of_lt hm1)

/-- C8, witness: the statement at a concrete one-row Silver table (total
200) and budget 300. -/
theorem C8_witness :
    (([sr8] : List SilverRow) ≠ [] ∧
      (∀ r ∈ ([sr8] : List SilverRow),
        ∃ q, r.total_pengeluaran = some q ∧ 0 ≤ q)) ∧
    ((∀ g ∈ (aggregate_gold [sr8] 300).1,
        ∃ e, g.efficiency_score = some e ∧ 0 ≤ e ∧ e ≤ 1) ∧
      (∀ g ∈ (aggregate_gold [sr8] 300).1,
        ∀ g2 ∈ (aggregate_gold [sr8] 300).1,
          ∀ t t2 e e2, g.silver.total_pengeluaran = some t →
            g2.silver.total_pengeluaran = some t2 →
            g.efficiency_score = some e → g2.efficiency_score = some e2 →
            t ≤ t2 → e ≤ e2)) := by
  have hne : ([sr8] : List SilverRow) ≠ [] := by simp
  have htot : ∀ r ∈ ([sr8] : List SilverRow),
      ∃ q, r.total_pengeluaran = some q ∧ 0 ≤ q := by
    intro r hr
    rw [List.mem_singleton] at hr
    subst hr
    exact ⟨200, rfl, by norm_num⟩
  exact ⟨⟨hne, htot⟩, C8_efficiency [sr8] 300 hne htot⟩

/-- C9: whenever no row of the input has a (non-NaN) total within the
budget, the engine returns the `None` sentinel rather than raising. -/
theorem C9_no_feasible (wc wr we budget : ℚ) (rows : List GoldRow)
    (h : ∀ r ∈ rows, ∀ t, r.silver.total_pengeluaran = some t → budget < t) :
    calc_scores wc wr we budget rows = none := by
  have hfe : feasibleSet rows budget = [] := by
    unfold feasibleSet
    rw [List.filter_eq_nil_iff]
    intro r hr
    cases htt : r.silver.total_pengeluaran with
    | none => simp [htt]
    | some t =>
      have hbt := h r hr t htt
      simp only [htt, decide_eq_true_eq]
      exact not_le.mpr hbt
  simp [calc_scores, hfe]

/-- C9, witness: the statement at budget 0 against a one-row table whose
total is 100. -/
theorem C9_witness :
    (∀ r ∈ ([g9] : List GoldRow), ∀ t,
        r.silver.total_pengeluaran = some t → (0:ℚ) < t) ∧
    calc_scores weight_cost weight_remaining weight_experience 0 [g9] =
      none := by
  have h : ∀ r ∈ ([g9] : List GoldRow), ∀ t,
      r.silver.total_pengeluaran = some t → (0:ℚ) < t := by
    intro r hr t ht
    rw [List.mem_singleton] at hr
    subst hr
    have ht2 : (some (100:ℚ) : Option ℚ) = some t := ht
    rw [← Option.some.inj ht2]
    norm_num
  exact ⟨h, C9_no_feasible weight_cost weight_remaining weight_experience 0
    [g9] h⟩

/-- C10: the Gold stage returns its input rows unchanged, in order, with all
pre-existing field values intact — projecting away the two added columns
recovers the Silver input exactly (the source operates on
`df_silver.copy()`, and the embedding is pure, so the input table itself
is untouched). -/
theorem C10_gold_frame (rows : List SilverRow) (budget : ℚ) :
    (aggregate_gold rows budget).1.map GoldRow.silver = rows := by
  simp only [aggregate_gold, List.map_map]
  exact List.map_id rows

end KPop
